import Mathlib

/-!
Verification development for CrashVault's event-ingestion and webhook-dispatch
core (crashvault/server.py, crashvault/core.py, crashvault/webhooks/).

The Python code is shallowly embedded: JSON documents become the inductive
type `J`, Python dicts become association lists `List (String × J)` with
`dict.get` semantics, machine-level hashing (hashlib.sha1, hashlib.sha256,
hmac) is implemented over `Nat` byte lists with explicit `% 2^32` masking,
and the HTTP handlers become pure state-transition functions over a `Vault`
record (issue collection, event store, and a freshness counter standing for
uuid4 generation).  Timestamps and the requesting peer address are threaded
as parameters.  Fallible Python code (uncaught exceptions) is modelled by
explicit error constructors.
-/

namespace CrashVault

/-- JSON values, the model of Python objects decoded by `json.loads`.
Numbers are modelled as integers (the ingestion claims never depend on
floats). -/
inductive J where
  | null
  | bool (b : Bool)
  | num (n : Int)
  | str (s : String)
  | arr (l : List J)
  | obj (l : List (String × J))

/-- Python truthiness (`if x:`) for the supported JSON values. -/
def J.truthy : J → Bool
  | .null => false
  | .bool b => b
  | .num n => n != 0
  | .str s => !(s == "")
  | .arr l => !l.isEmpty
  | .obj l => !l.isEmpty

/-- Model of `d.get(k)` on a Python dict: the value stored under the first
occurrence of the key, if any. -/
def pyGet (d : List (String × J)) (k : String) : Option J :=
  match d with
  | [] => none
  | (k2, v) :: rest => if k2 == k then some v else pyGet rest k

/-- Model of `d.get(k, default)`. -/
def pyGetD (d : List (String × J)) (k : String) (dflt : J) : J :=
  (pyGet d k).getD dflt

/-- Model of `d[k] = v` on a Python dict (whose keys are unique): replace
the value under an existing key in place, otherwise append the new entry. -/
def setKey : List (String × J) → String → J → List (String × J)
  | [], k, v => [(k, v)]
  | (k1, v1) :: rest, k, v =>
      if k1 == k then (k, v) :: rest else (k1, v1) :: setKey rest k v

/-- ASCII lowering of one character, the relevant fragment of `str.lower()`. -/
def charLower (c : Char) : Char :=
  if 65 ≤ c.toNat ∧ c.toNat ≤ 90 then Char.ofNat (c.toNat + 32) else c

/-- Model of Python `s.lower()`. -/
def pyLower (s : String) : String := ⟨s.data.map charLower⟩

/-- Model of Python slicing `s[:n]`. -/
def strTake (s : String) (n : Nat) : String := ⟨s.data.take n⟩

/-- Lexicographic comparison of character lists by code point. -/
def charListLt : List Char → List Char → Bool
  | [], [] => false
  | [], _ :: _ => true
  | _ :: _, [] => false
  | a :: as, b :: bs =>
      if a.toNat < b.toNat then true
      else if b.toNat < a.toNat then false
      else charListLt as bs

/-- Model of Python `str <` (lexicographic by code point), used by
`sorted` on dictionary keys. -/
def strLt (a b : String) : Bool := charListLt a.data b.data

/-- UTF-8 encoding of a single character as byte values. -/
def utf8Char (c : Char) : List Nat :=
  let n := c.toNat
  if n < 128 then [n]
  else if n < 2048 then [192 + n / 64, 128 + n % 64]
  else if n < 65536 then [224 + n / 4096, 128 + n / 64 % 64, 128 + n % 64]
  else [240 + n / 262144, 128 + n / 4096 % 64, 128 + n / 64 % 64, 128 + n % 64]

/-- Model of Python `s.encode("utf-8")` as a list of byte values. -/
def utf8 (s : String) : List Nat := s.data.flatMap utf8Char

/-- The modulus for 32-bit words. -/
def M32 : Nat := 4294967296

/-- 32-bit left rotation. -/
def rotl (n k : Nat) : Nat := ((n <<< k) % M32) ||| (n >>> (32 - k))

/-- 32-bit right rotation. -/
def rotr (n k : Nat) : Nat := (n >>> k) ||| ((n <<< (32 - k)) % M32)

/-- 32-bit bitwise complement. -/
def not32 (n : Nat) : Nat := n ^^^ 4294967295

/-- Splits a byte list into chunks of the given size (fuel-indexed helper). -/
def chunksAux (size : Nat) : Nat → List Nat → List (List Nat)
  | 0, _ => []
  | _, [] => []
  | fuel + 1, l => l.take size :: chunksAux size fuel (l.drop size)

/-- Splits a byte list into chunks of the given size. -/
def chunks (size : Nat) (l : List Nat) : List (List Nat) := chunksAux size l.length l

/-- Merkle–Damgård padding shared by SHA-1 and SHA-256: a 0x80 byte, zeros up
to 56 mod 64, then the bit length as 8 big-endian bytes. -/
def mdPad (msg : List Nat) : List Nat :=
  let len := msg.length
  let k := (64 - (len + 9) % 64) % 64
  let bitLen := len * 8
  msg ++ [128] ++ List.replicate k 0 ++
    (List.range 8).map (fun i => bitLen / 256 ^ (7 - i) % 256)

/-- Big-endian 32-bit word from four bytes. -/
def bytesToWord (b : List Nat) : Nat := b.foldl (fun acc x => acc * 256 + x) 0

/-- Big-endian bytes of a 32-bit word. -/
def wordBytes (n : Nat) : List Nat :=
  [n / 16777216 % 256, n / 65536 % 256, n / 256 % 256, n % 256]

/-- SHA-1 message-schedule extension of a 16-word block to 80 words. -/
def sha1Extend (ws : List Nat) : List Nat :=
  (List.range 64).foldl
    (fun acc _ =>
      let n := acc.length
      let w := (acc.getD (n - 3) 0) ^^^ (acc.getD (n - 8) 0) ^^^
               (acc.getD (n - 14) 0) ^^^ (acc.getD (n - 16) 0)
      acc ++ [rotl w 1])
    ws

/-- SHA-1 round function. -/
def sha1F (i b c d : Nat) : Nat :=
  if i < 20 then (b &&& c) ||| (not32 b &&& d)
  else if i < 40 then b ^^^ c ^^^ d
  else if i < 60 then (b &&& c) ||| (b &&& d) ||| (c &&& d)
  else b ^^^ c ^^^ d

/-- SHA-1 round constants. -/
def sha1K (i : Nat) : Nat :=
  if i < 20 then 1518500249
  else if i < 40 then 1859775393
  else if i < 60 then 2400959708
  else 3395469782

/-- One SHA-1 block step over the running five-word state. -/
def sha1Block (h : List Nat) (block : List Nat) : List Nat :=
  let ws := sha1Extend ((chunks 4 block).map bytesToWord)
  let init := (h.getD 0 0, h.getD 1 0, h.getD 2 0, h.getD 3 0, h.getD 4 0)
  let fin := (List.range 80).foldl
    (fun st i =>
      let (a, b, c, d, e) := st
      let t := (rotl a 5 + sha1F i b c d + e + sha1K i + ws.getD i 0) % M32
      (t, a, rotl b 30, c, d))
    init
  let (a, b, c, d, e) := fin
  [(h.getD 0 0 + a) % M32, (h.getD 1 0 + b) % M32, (h.getD 2 0 + c) % M32,
   (h.getD 3 0 + d) % M32, (h.getD 4 0 + e) % M32]

/-- SHA-1 digest of a byte list as five 32-bit words. -/
def sha1Words (msg : List Nat) : List Nat :=
  (chunks 64 (mdPad msg)).foldl sha1Block
    [1732584193, 4023233417, 2562383102, 271733878, 3285377520]

/-- Lowercase hexadecimal digit. -/
def hexDigit (n : Nat) : Char := Char.ofNat (if n < 10 then 48 + n else 87 + n)

/-- Eight-hex-digit rendering of a 32-bit word. -/
def hex8 (n : Nat) : List Char :=
  (List.range 8).map (fun i => hexDigit (n / 16 ^ (7 - i) % 16))

/-- Model of `hashlib.sha1(msg).hexdigest()`. -/
def sha1Hex (msg : List Nat) : String := ⟨(sha1Words msg).flatMap hex8⟩

/-- The SHA-256 round constants. -/
def sha256K : List Nat :=
  [1116352408, 1899447441, 3049323471, 3921009573, 961987163, 1508970993,
   2453635748, 2870763221, 3624381080, 310598401, 607225278, 1426881987,
   1925078388, 2162078206, 2614888103, 3248222580, 3835390401, 4022224774,
   264347078, 604807628, 770255983, 1249150122, 1555081692, 1996064986,
   2554220882, 2821834349, 2952996808, 3210313671, 3336571891, 3584528711,
   113926993, 338241895, 666307205, 773529912, 1294757372, 1396182291,
   1695183700, 1986661051, 2177026350, 2456956037, 2730485921, 2820302411,
   3259730800, 3345764771, 3516065817, 3600352804, 4094571909, 275423344,
   430227734, 506948616, 659060556, 883997877, 958139571, 1322822218,
   1537002063, 1747873779, 1955562222, 2024104815, 2227730452, 2361852424,
   2428436474, 2756734187, 3204031479, 3329325298]

/-- SHA-256 message-schedule extension of a 16-word block to 64 words. -/
def sha256Extend (ws : List Nat) : List Nat :=
  (List.range 48).foldl
    (fun acc _ =>
      let n := acc.length
      let w15 := acc.getD (n - 15) 0
      let w2 := acc.getD (n - 2) 0
      let s0 := rotr w15 7 ^^^ rotr w15 18 ^^^ (w15 >>> 3)
      let s1 := rotr w2 17 ^^^ rotr w2 19 ^^^ (w2 >>> 10)
      acc ++ [(acc.getD (n - 16) 0 + s0 + acc.getD (n - 7) 0 + s1) % M32])
    ws

/-- One SHA-256 block step over the running eight-word state. -/
def sha256Block (h : List Nat) (block : List Nat) : List Nat :=
  let ws := sha256Extend ((chunks 4 block).map bytesToWord)
  let init := (h.getD 0 0, h.getD 1 0, h.getD 2 0, h.getD 3 0,
               h.getD 4 0, h.getD 5 0, h.getD 6 0, h.getD 7 0)
  let fin := (List.range 64).foldl
    (fun st i =>
      let (a, b, c, d, e, f, g, hh) := st
      let s1 := rotr e 6 ^^^ rotr e 11 ^^^ rotr e 25
      let ch := (e &&& f) ^^^ (not32 e &&& g)
      let t1 := (hh + s1 + ch + sha256K.getD i 0 + ws.getD i 0) % M32
      let s0 := rotr a 2 ^^^ rotr a 13 ^^^ rotr a 22
      let mj := (a &&& b) ^^^ (a &&& c) ^^^ (b &&& c)
      let t2 := (s0 + mj) % M32
      ((t1 + t2) % M32, a, b, c, (d + t1) % M32, e, f, g))
    init
  let (a, b, c, d, e, f, g, hh) := fin
  [(h.getD 0 0 + a) % M32, (h.getD 1 0 + b) % M32, (h.getD 2 0 + c) % M32,
   (h.getD 3 0 + d) % M32, (h.getD 4 0 + e) % M32, (h.getD 5 0 + f) % M32,
   (h.getD 6 0 + g) % M32, (h.getD 7 0 + hh) % M32]

/-- SHA-256 digest of a byte list as eight 32-bit words. -/
def sha256Words (msg : List Nat) : List Nat :=
  (chunks 64 (mdPad msg)).foldl sha256Block
    [1779033703, 3144134277, 1013904242, 2773480762,
     1359893119, 2600822924, 528734635, 1541459225]

/-- SHA-256 digest of a byte list as 32 bytes. -/
def sha256Bytes (msg : List Nat) : List Nat := (sha256Words msg).flatMap wordBytes

/-- Model of `hashlib.sha256(msg).hexdigest()`. -/
def sha256Hex (msg : List Nat) : String := ⟨(sha256Words msg).flatMap hex8⟩

/-- Two-hex-digit rendering of a byte. -/
def hex2 (n : Nat) : List Char := [hexDigit (n / 16 % 16), hexDigit (n % 16)]

/-- HMAC-SHA256 (RFC 2104) digest bytes, the model of
`hmac.new(key, msg, hashlib.sha256).digest()`. -/
def hmacSha256 (key msg : List Nat) : List Nat :=
  let k0 := if key.length > 64 then sha256Bytes key else key
  let kp := k0 ++ List.replicate (64 - k0.length) 0
  let ip := kp.map (fun b => b ^^^ 54)
  let op := kp.map (fun b => b ^^^ 92)
  sha256Bytes (op ++ sha256Bytes (ip ++ msg))

/-- Model of `hmac.new(key, msg, hashlib.sha256).hexdigest()`. -/
def hmacSha256Hex (key msg : List Nat) : String :=
  ⟨(hmacSha256 key msg).flatMap hex2⟩

/-- Four-hex-digit rendering used by JSON `\u` escapes. -/
def hex4 (n : Nat) : List Char :=
  (List.range 4).map (fun i => hexDigit (n / 16 ^ (3 - i) % 16))

/-- Escaping of one character as performed by Python `json.dumps` with its
default `ensure_ascii=True`: two-character escapes for the common control
characters, backslash and quote; `\uXXXX` (with surrogate pairs beyond the
BMP) for every other character outside printable ASCII. -/
def escChar (c : Char) : List Char :=
  let n := c.toNat
  if c = '"' then ['\\', '"']
  else if c = '\\' then ['\\', '\\']
  else if n = 8 then ['\\', 'b']
  else if n = 9 then ['\\', 't']
  else if n = 10 then ['\\', 'n']
  else if n = 12 then ['\\', 'f']
  else if n = 13 then ['\\', 'r']
  else if 32 ≤ n ∧ n ≤ 126 then [c]
  else if n < 65536 then '\\' :: 'u' :: hex4 n
  else
    let m := n - 65536
    ('\\' :: 'u' :: hex4 (55296 + m / 1024)) ++ ('\\' :: 'u' :: hex4 (56320 + m % 1024))

/-- JSON string literal rendering, quotes included. -/
def quoteStr (s : String) : String := ⟨'"' :: s.data.flatMap escChar ++ ['"']⟩

/-- Joins rendered items with the default `json.dumps` item separator. -/
def joinComma : List String → String
  | [] => ""
  | [x] => x
  | x :: rest => x ++ ", " ++ joinComma rest

/-- Inserts a rendered entry into a key-sorted entry list. -/
def insertByKey (p : String × String) :
    List (String × String) → List (String × String)
  | [] => [p]
  | q :: rest => if strLt p.1 q.1 then p :: q :: rest else q :: insertByKey p rest

/-- Sorts rendered object entries by key, the model of `sort_keys=True`. -/
def sortByKey : List (String × String) → List (String × String)
  | [] => []
  | p :: rest => insertByKey p (sortByKey rest)

mutual

/-- Model of Python `json.dumps(v, sort_keys=True)` with the default
separators and `ensure_ascii` behaviour. -/
def dumps (j : J) : String :=
  match j with
  | .null => "null"
  | .bool b => if b then "true" else "false"
  | .num n => toString n
  | .str s => quoteStr s
  | .arr l => "[" ++ joinComma (dumpsList l) ++ "]"
  | .obj l =>
      "\x7b" ++ joinComma ((sortByKey (dumpsEntries l)).map
        (fun p => quoteStr p.1 ++ ": " ++ p.2)) ++ "\x7d"
termination_by structural j

/-- Renders every array element. -/
def dumpsList (l : List J) : List String :=
  match l with
  | [] => []
  | v :: rest => dumps v :: dumpsList rest
termination_by structural l

/-- Renders every object value, keeping the key for sorting. -/
def dumpsEntries (l : List (String × J)) : List (String × String) :=
  match l with
  | [] => []
  | (k, v) :: rest => (k, dumps v) :: dumpsEntries rest
termination_by structural l

end

/-- Model of the fingerprint computation in `server.py`:
`hashlib.sha1(message.encode("utf-8")).hexdigest()[:8]`. -/
def fingerprint (m : String) : String := strTake (sha1Hex (utf8 m)) 8

/-- The valid severity levels accepted by `_handle_event`. -/
def validLevels : List String := ["debug", "info", "warning", "error", "critical"]

/-- An issue record as stored in `issues.json`. -/
structure Issue where
  id : Nat
  fingerprint : String
  title : String
  status : String
  created_at : String
deriving DecidableEq

/-- An event record as written to the event store.  The `event_id` is the
value of the uuid4 freshness counter at creation time; fields copied from
the request body keep their JSON value. -/
structure Ev where
  event_id : Nat
  issue_id : Nat
  message : String
  stacktrace : J
  timestamp : String
  level : J
  tags : J
  context : J
  host : J
  pid : J

/-- Server-side persistent state: the issue collection, the event store, and
the uuid4 freshness counter (each generated uuid is modelled by the counter
value, which is then incremented; distinct counter values stand for the
distinctness of freshly drawn uuid4 values). -/
structure Vault where
  issues : List Issue
  events : List Ev
  next : Nat

/-- The normalized event fields extracted from a request body, shared by the
single-event and the batch embedding so the two normalizations can be
compared. -/
structure NormFields where
  message : String
  stacktrace : J
  level : J
  tags : J
  context : J
  host : J
  pid : J

/-- Outcome of body normalization: a 400 client error for a missing or falsy
message, an uncaught Python exception (`AttributeError` on a non-string
`message` or `level`), or the normalized fields. -/
inductive NormOutcome where
  | badRequest
  | pyError
  | ok (f : NormFields)

/-- Model of the `tags` normalization in `_handle_event`: a string value is
wrapped into a one-element list, everything else is kept verbatim, absent
defaults to the empty list. -/
def singleTags (d : List (String × J)) : J :=
  match pyGetD d "tags" (J.arr []) with
  | .str s => J.arr [J.str s]
  | t => t

/-- Model of the `context` normalization in `_handle_event`: a non-dict
context is replaced by an empty dict, then truthy `source`/`url`,
`line`/`lineno` and `column`/`colno` values are folded in. -/
def singleContext (d : List (String × J)) : List (String × J) :=
  let base : List (String × J) :=
    match pyGetD d "context" (J.obj []) with
    | .obj l => l
    | _ => []
  let src := pyGetD d "source" (pyGetD d "url" (J.str ""))
  let c1 := if src.truthy then setKey base "source" src else base
  let c2 :=
    match (pyGet d "line").orElse (fun _ => pyGet d "lineno") with
    | some v => if v.truthy then setKey c1 "line" v else c1
    | none => c1
  match (pyGet d "column").orElse (fun _ => pyGet d "colno") with
  | some v => if v.truthy then setKey c2 "column" v else c2
  | none => c2

/-- Model of the validation and normalization block of `_handle_event`
(server.py lines 100-133): requires a truthy `message`, accepts the `stack`
alias for `stacktrace`, lowercases and validates `level` (invalid or missing
values coerce to `"error"`), wraps string `tags`, discards non-dict
`context` and folds source/line/column information into it.  `client` is the
requesting peer address used as the `host` default. -/
def normSingle (client : String) (d : List (String × J)) : NormOutcome :=
  match pyGet d "message" with
  | none => .badRequest
  | some mv =>
    if mv.truthy then
      match pyGetD d "level" (J.str "error") with
      | .str lv =>
          match mv with
          | .str m =>
              let low := pyLower lv
              let level := if validLevels.contains low then low else "error"
              .ok
                { message := m
                  stacktrace := pyGetD d "stacktrace" (pyGetD d "stack" (J.str ""))
                  level := J.str level
                  tags := singleTags d
                  context := J.obj (singleContext d)
                  host := pyGetD d "host" (J.str client)
                  pid := pyGetD d "pid" (J.num 0) }
          | _ => .pyError
      | _ => .pyError
    else .badRequest

/-- Model of the per-element field extraction of `_handle_batch`
(server.py lines 226-237): every field is taken verbatim with plain
defaults; no lowercasing, no validation, no alias, no folding. -/
def batchFields (client : String) (l : List (String × J)) (m : String) : NormFields :=
  { message := m
    stacktrace := pyGetD l "stacktrace" (J.str "")
    level := pyGetD l "level" (J.str "error")
    tags := pyGetD l "tags" (J.arr [])
    context := pyGetD l "context" (J.obj [])
    host := pyGetD l "host" (J.str client)
    pid := pyGetD l "pid" (J.num 0) }

/-- Builds the stored event record from normalized fields. -/
def mkEvent (eid iid : Nat) (ts : String) (f : NormFields) : Ev :=
  { event_id := eid
    issue_id := iid
    message := f.message
    stacktrace := f.stacktrace
    timestamp := ts
    level := f.level
    tags := f.tags
    context := f.context
    host := f.host
    pid := f.pid }

/-- Model of the issue-resolution and persistence step shared verbatim by
`_handle_event` (server.py lines 139-177) and `_handle_batch` (lines
209-243): look up the first issue with the computed fingerprint; if none
exists, create one with `id = len(issues) + 1`, title `message[:80]` and
status `open`, and append it; then append the event record.  Returns
`(event_id, issue_id, issue_created)` and the new state. -/
def storeEvent (ts : String) (f : NormFields) (s : Vault) :
    (Nat × Nat × Bool) × Vault :=
  match s.issues.find? (fun i => i.fingerprint == fingerprint f.message) with
  | some issue =>
      ((s.next, issue.id, false),
       { s with events := s.events ++ [mkEvent s.next issue.id ts f],
                next := s.next + 1 })
  | none =>
      ((s.next, s.issues.length + 1, true),
       { issues := s.issues ++
           [{ id := s.issues.length + 1
              fingerprint := fingerprint f.message
              title := strTake f.message 80
              status := "open"
              created_at := ts }]
         events := s.events ++ [mkEvent s.next (s.issues.length + 1) ts f]
         next := s.next + 1 })

/-- Response of the single-event endpoint: 400, an uncaught exception, or
201 with `(event_id, issue_id, issue_created)`. -/
inductive SingleOutcome where
  | badRequest
  | pyError
  | created (eid iid : Nat) (isNew : Bool)
deriving DecidableEq

/-- Model of `_handle_event`: normalize the body, then resolve or create the
issue and persist the event. -/
def handleEvent (client ts : String) (d : List (String × J)) (s : Vault) :
    SingleOutcome × Vault :=
  match normSingle client d with
  | .badRequest => (.badRequest, s)
  | .pyError => (.pyError, s)
  | .ok f =>
      let r := storeEvent ts f s
      (.created r.1.1 r.1.2.1 r.1.2.2, r.2)

/-- The batch skip test of `_handle_batch`: an element is processed exactly
when it is a dict with a truthy `message`. -/
def shouldProcess (el : J) : Bool :=
  match el with
  | .obj l =>
      match pyGet l "message" with
      | some v => v.truthy
      | none => false
  | _ => false

/-- Model of the per-element loop of `_handle_batch`: elements failing the
skip test are dropped; a processed element with a truthy non-string
`message` raises (`none` result), aborting the loop but keeping the writes
already performed; otherwise each processed element appends its records and
contributes one `(event_id, issue_id)` result. -/
def runBatch (client ts : String) : List J → Vault → Option (List (Nat × Nat)) × Vault
  | [], s => (some [], s)
  | el :: rest, s =>
      if shouldProcess el then
        match el with
        | .obj l =>
            match pyGet l "message" with
            | some (.str m) =>
                let r := storeEvent ts (batchFields client l m) s
                let r2 := runBatch client ts rest r.2
                (r2.1.map (fun xs => (r.1.1, r.1.2.1) :: xs), r2.2)
            | _ => (none, s)
        | _ => (none, s)
      else runBatch client ts rest s

/-- Response of the batch endpoint: 400 for a non-array `events` field, 400
for more than 100 elements, an uncaught exception, or 201 with the per
element results. -/
inductive BatchOutcome where
  | notArray
  | tooMany
  | pyError
  | ok (results : List (Nat × Nat))
deriving DecidableEq

/-- Model of `_handle_batch` (server.py lines 191-252): `events` defaults to
the empty list, a non-list value is a 400, a batch of more than 100 elements
is rejected wholesale before anything is written, and otherwise the element
loop runs. -/
def handleBatch (client ts : String) (d : List (String × J)) (s : Vault) :
    BatchOutcome × Vault :=
  match pyGet d "events" with
  | some (.arr l) =>
      if l.length > 100 then (.tooMany, s)
      else
        match runBatch client ts l s with
        | (some rs, s2) => (.ok rs, s2)
        | (none, s2) => (.pyError, s2)
  | none => (.ok [], s)
  | some _ => (.notArray, s)

/-- A webhook subscription, the model of `WebhookConfig` in
`webhooks/base.py`. -/
structure WebhookConfig where
  id : String
  type : String
  url : String
  name : Option String
  secret : Option String
  events : Option (List String)
  enabled : Bool
deriving DecidableEq

/-- The canonical notification payload, the model of `WebhookPayload` in
`webhooks/base.py`.  `issue_id` is an integer and `context` an arbitrary
JSON object, as in the source. -/
structure WebhookPayload where
  event_id : String
  issue_id : Int
  message : String
  level : String
  stacktrace : Option String
  timestamp : Option String
  tags : Option (List String)
  context : Option (List (String × J))
  host : Option String

/-- JSON value of an optional string (`None` becomes `null`). -/
def optStr : Option String → J
  | none => J.null
  | some s => J.str s

/-- Model of `WebhookPayload.to_dict`: the nine fixed keys, with `tags or []`
and `context or {}` defaulting. -/
def payloadDict (p : WebhookPayload) : List (String × J) :=
  [("event_id", J.str p.event_id),
   ("issue_id", J.num p.issue_id),
   ("message", J.str p.message),
   ("level", J.str p.level),
   ("stacktrace", optStr p.stacktrace),
   ("timestamp", optStr p.timestamp),
   ("tags", J.arr (((p.tags.getD []).map J.str))),
   ("context", J.obj (p.context.getD [])),
   ("host", optStr p.host)]

/-- Model of `WebhookPayload.sign`: the HMAC-SHA256 hex digest, keyed by the
UTF-8 secret, of the sorted-key JSON serialization of `to_dict`. -/
def signPayload (p : WebhookPayload) (secret : String) : String :=
  hmacSha256Hex (utf8 secret) (utf8 (dumps (J.obj (payloadDict p))))

/-- Model of `WebhookProvider.should_send` (webhooks/base.py lines 97-107):
disabled subscriptions never match; an absent or empty `events` filter
matches everything; otherwise the payload level must be in the filter,
case-insensitively. -/
def shouldSend (w : WebhookConfig) (p : WebhookPayload) : Bool :=
  if !w.enabled then false
  else
    match w.events with
    | none => true
    | some evs =>
        if evs.isEmpty then true
        else (evs.map pyLower).contains (pyLower p.level)

/-- The provider types registered by importing the `webhooks` package
(slack.py, discord.py, http.py each call `register_provider`). -/
def registeredTypes : List String := ["slack", "discord", "http"]

/-- Result of one provider `send` call: a returned boolean, or a raised
exception. -/
inductive SendOutcome where
  | ok (b : Bool)
  | raised
deriving DecidableEq

/-- The boolean recorded in the dispatch result map for one send outcome: a
raised exception is caught and recorded as `false`
(webhooks/dispatcher.py lines 128-139). -/
def sendValue : SendOutcome → Bool
  | .ok b => b
  | .raised => false

/-- Model of `WebhookDispatcher.dispatch` (webhooks/dispatcher.py lines
103-141): providers are instantiated for each subscription whose type is
registered and for which `should_send` holds, every selected provider's
`send` is attempted, and one boolean per selected subscription id is
collected.  The send behaviour is a parameter; the thread-pool completion
order only affects dict insertion order, so the result map is modelled as
an association list in subscription order. -/
def dispatch (subs : List WebhookConfig) (p : WebhookPayload)
    (send : WebhookConfig → SendOutcome) : List (String × Bool) :=
  (subs.filter (fun w => registeredTypes.contains w.type && shouldSend w p)).map
    (fun w => (w.id, sendValue (send w)))

/-- Model of `WebhookDispatcher.get_webhook`: first subscription with the
given id. -/
def getWebhook (subs : List WebhookConfig) (wid : String) : Option WebhookConfig :=
  subs.find? (fun w => w.id == wid)

/-- The synthetic payload built by `test_webhook` (the uuid4 suffix of the
test event id is abstracted). -/
def testPayload : WebhookPayload :=
  { event_id := "test"
    issue_id := 0
    message := "This is a test notification from CrashVault"
    level := "info"
    stacktrace := none
    timestamp := some "2024-01-01T00:00:00Z"
    tags := some ["test"]
    context := none
    host := some "crashvault-test" }

/-- Model of `WebhookDispatcher.test_webhook` (webhooks/dispatcher.py lines
143-163) as a call trace: the provider `send` invocation it performs, if
any.  The subscription is looked up by id and its provider constructed; no
`should_send` check occurs. -/
def testWebhookCall (subs : List WebhookConfig) (wid : String) :
    Option (WebhookConfig × WebhookPayload) :=
  match getWebhook subs wid with
  | none => none
  | some w => if registeredTypes.contains w.type then some (w, testPayload) else none

/-- Model of `WebhookDispatcher.test_webhook`'s return value, with the
provider send behaviour as a parameter. -/
def testWebhook (subs : List WebhookConfig) (wid : String)
    (send : WebhookConfig → WebhookPayload → Bool) : Bool :=
  match testWebhookCall subs wid with
  | none => false
  | some (w, p) => send w p

/-- Model of the headers built by `HTTPWebhook.send` (webhooks/http.py lines
25-34): the fixed headers, plus the signature header exactly when the
Python truthiness test `if self.config.secret:` passes — that is, when the
secret is neither `None` nor the empty string. -/
def httpHeaders (w : WebhookConfig) (p : WebhookPayload) : List (String × String) :=
  [("Content-Type", "application/json"),
   ("User-Agent", "CrashVault/1.0"),
   ("X-CrashVault-Event", p.event_id)] ++
  (match w.secret with
   | some sec =>
       if sec == "" then []
       else [("X-CrashVault-Signature", "sha256=" ++ signPayload p sec)]
   | none => [])

/-- Model of `WebhookConfig.to_dict`. -/
def webhookDict (w : WebhookConfig) : J :=
  J.obj
    [("id", J.str w.id), ("type", J.str w.type), ("url", J.str w.url),
     ("name", optStr w.name), ("secret", optStr w.secret),
     ("events", match w.events with
                | none => J.null
                | some evs => J.arr (evs.map J.str)),
     ("enabled", J.bool w.enabled)]

/-- Model of `WebhookDispatcher._save_webhooks` (webhooks/dispatcher.py
lines 44-48): reload the shared configuration document and overwrite only
its `webhooks` key. -/
def saveWebhooks (cfg : List (String × J)) (whs : List WebhookConfig) :
    List (String × J) :=
  setKey cfg "webhooks" (J.arr (whs.map webhookDict))

/-- Model of `WebhookDispatcher.add_webhook`: append the new subscription
(with a caller-supplied fresh short id standing for `uuid4()[:8]`) and
persist.  Returns the created record, the new registry, and the new
configuration document. -/
def addWebhook (cfg : List (String × J)) (whs : List WebhookConfig)
    (newId ty url : String) (nm sec : Option String)
    (evs : Option (List String)) :
    WebhookConfig × List WebhookConfig × List (String × J) :=
  let w : WebhookConfig :=
    { id := newId, type := ty, url := url
      name := some (nm.getD (ty ++ "-webhook"))
      secret := sec, events := evs, enabled := true }
  let whs2 := whs ++ [w]
  (w, whs2, saveWebhooks cfg whs2)

/-- Removes the first subscription with the given id, if present. -/
def removeFirst (wid : String) : List WebhookConfig → Option (List WebhookConfig)
  | [] => none
  | w :: rest =>
      if w.id == wid then some rest
      else (removeFirst wid rest).map (fun l => w :: l)

/-- Model of `WebhookDispatcher.remove_webhook`: delete the first match and
persist; without a match nothing is saved. -/
def removeWebhook (cfg : List (String × J)) (whs : List WebhookConfig)
    (wid : String) : Bool × List WebhookConfig × List (String × J) :=
  match removeFirst wid whs with
  | some whs2 => (true, whs2, saveWebhooks cfg whs2)
  | none => (false, whs, cfg)

/-- Sets the enabled flag on the first subscription with the given id. -/
def toggleFirst (wid : String) (en : Bool) :
    List WebhookConfig → Option (List WebhookConfig)
  | [] => none
  | w :: rest =>
      if w.id == wid then some ({ w with enabled := en } :: rest)
      else (toggleFirst wid en rest).map (fun l => w :: l)

/-- Model of `WebhookDispatcher.toggle_webhook`: flip the flag on the first
match and persist; without a match nothing is saved. -/
def toggleWebhook (cfg : List (String × J)) (whs : List WebhookConfig)
    (wid : String) (en : Bool) : Bool × List WebhookConfig × List (String × J) :=
  match toggleFirst wid en whs with
  | some whs2 => (true, whs2, saveWebhooks cfg whs2)
  | none => (false, whs, cfg)

/-- One file in the events partition tree, as seen by `load_events`
(core.py lines 147-156): either its JSON parse succeeds with an event
document, or parsing raises (a corrupt file). -/
inductive RawFile where
  | valid (ev : J)
  | corrupt

/-- Tests whether a file parses. -/
def rawIsValid : RawFile → Bool
  | .valid _ => true
  | .corrupt => false

/-- The parsed document of a file, if parsing succeeds. -/
def rawValue : RawFile → Option J
  | .valid ev => some ev
  | .corrupt => none

/-- Model of `load_events` (`get_all` in the spec): scan every file, keep
each document whose parse succeeds, and silently skip each file whose parse
raises.  The function is total: no input aborts the scan. -/
def loadEvents : List RawFile → List J
  | [] => []
  | .valid ev :: rest => ev :: loadEvents rest
  | .corrupt :: rest => loadEvents rest

/-- Level values in a request body are in normal form when the `level` key
is absent or already a valid lowercase level name. -/
def levelOk (d : List (String × J)) : Bool :=
  match pyGet d "level" with
  | none => true
  | some (.str s) => validLevels.contains s
  | some _ => false

/-- Tags are in normal form when they are not a bare string. -/
def tagsOk (d : List (String × J)) : Bool :=
  match pyGet d "tags" with
  | some (.str _) => false
  | _ => true

/-- Context is in normal form when absent or a JSON object. -/
def ctxOk (d : List (String × J)) : Bool :=
  match pyGet d "context" with
  | none => true
  | some (.obj _) => true
  | some _ => false

/-- The stacktrace is in normal form when given under the `stacktrace` key,
or when the `stack` alias is absent as well. -/
def stackOk (d : List (String × J)) : Bool :=
  (pyGet d "stacktrace").isSome || (pyGet d "stack").isNone

/-- No folding alias (`source`, `url`, `line`, `lineno`, `column`, `colno`)
is present. -/
def noFoldKeys (d : List (String × J)) : Bool :=
  (pyGet d "source").isNone && (pyGet d "url").isNone &&
  (pyGet d "line").isNone && (pyGet d "lineno").isNone &&
  (pyGet d "column").isNone && (pyGet d "colno").isNone

/-- A request body already in the normal form produced by the single-event
endpoint's normalization. -/
def normalFormB (d : List (String × J)) : Bool :=
  levelOk d && tagsOk d && ctxOk d && stackOk d && noFoldKeys d

/-- Projection of a normalization outcome to its level string, used to
separate the two normalizations observationally. -/
def levelStrOf : NormOutcome → Option String
  | .ok f =>
      match f.level with
      | .str s => some s
      | _ => none
  | _ => none

/-- The vault with no issues, no events, and a fresh counter. -/
def emptyVault : Vault := { issues := [], events := [], next := 0 }

/-- A reachable vault state in which the only surviving issue has id 2: two
issues were created (ids 1 and 2 under the `len+1` rule) and issue 1 was
then deleted by the purge command. -/
def vaultC1 : Vault :=
  { issues := [{ id := 2, fingerprint := "00000000", title := "other",
                 status := "open", created_at := "T0" }]
    events := []
    next := 5 }

/-- A request body whose level is written in upper case. -/
def dC2 : List (String × J) := [("message", J.str "x"), ("level", J.str "ERROR")]

/-- Three enabled subscriptions and one disabled one, all of registered
types with distinct ids. -/
def subsC4 : List WebhookConfig :=
  [{ id := "a", type := "slack", url := "u1", name := none, secret := none,
     events := none, enabled := true },
   { id := "b", type := "discord", url := "u2", name := none, secret := none,
     events := some ["error"], enabled := true },
   { id := "c", type := "http", url := "u3", name := none, secret := none,
     events := some [], enabled := true },
   { id := "d", type := "http", url := "u4", name := none, secret := none,
     events := none, enabled := false }]

/-- An error-level payload. -/
def pErr : WebhookPayload :=
  { event_id := "e9", issue_id := 3, message := "m", level := "error",
    stacktrace := none, timestamp := none, tags := none, context := none,
    host := none }

/-- A send behaviour in which the provider of subscription `b` raises. -/
def sendC4 (w : WebhookConfig) : SendOutcome :=
  if w.id == "b" then .raised else .ok true

/-- The normalized fields of the body `\x7b"message": "boom"\x7d` received
from peer `h`. -/
def fBoom : NormFields :=
  { message := "boom", stacktrace := J.str "", level := J.str "error",
    tags := J.arr [], context := J.obj [], host := J.str "h", pid := J.num 0 }

/-- Tests for a JSON string value. -/
def isStrJ : J → Bool
  | .str _ => true
  | _ => false

/-- An element of a batch is safely processable when it does not carry a
truthy non-string `message` (which would raise inside the batch loop). -/
def msgIsStr (el : J) : Bool :=
  match el with
  | .obj li =>
      match pyGet li "message" with
      | some v => !v.truthy || isStrJ v
      | none => true
  | _ => true

/-- A concrete payload for validating the signing chain end to end. -/
def pSig : WebhookPayload :=
  { event_id := "e1", issue_id := 7, message := "boom", level := "error",
    stacktrace := none, timestamp := some "2024-01-01T00:00:00Z",
    tags := some ["a"], context := some [("k", J.num 1)], host := some "h1" }

set_option maxRecDepth 100000

/-- Validation of the SHA-1 embedding against the standard test vector. -/
theorem sha1_test_vector :
    sha1Hex (utf8 "abc") = "a9993e364706816aba3e25717850c26c9cd0d89d" := by
  decide

/-- Validation of the SHA-256 embedding against the standard test vector. -/
theorem sha256_test_vector :
    sha256Hex (utf8 "abc") =
      "ba7816bf8f01cfea414140de5dae2223b00361a396177a9cb410ff61f20015ad" := by
  decide

/-- Validation of the HMAC-SHA256 embedding against RFC 4231 test case 2. -/
theorem hmac_test_vector :
    hmacSha256Hex (utf8 "Jefe") (utf8 "what do ya want for nothing?") =
      "5bdcc146bf60754e6a042426089575c75a003f089d2739839dec58b964ec3843" := by
  decide

/-- C5: `should_send` returns false for a disabled subscription, true when
the events filter is absent or empty, and otherwise decides membership of
the payload level in the filter case-insensitively; in particular a
subscription filtering on `critical` rejects an `error`-level payload. -/
theorem c5_should_send (w : WebhookConfig) (p : WebhookPayload) :
    (w.enabled = false → shouldSend w p = false)
    ∧ (w.enabled = true → (w.events = none ∨ w.events = some []) →
        shouldSend w p = true)
    ∧ (∀ evs, w.enabled = true → w.events = some evs → evs ≠ [] →
        (shouldSend w p = true ↔
          (evs.map pyLower).contains (pyLower p.level) = true))
    ∧ (∀ u, shouldSend
        { id := "w1", type := "http", url := u, name := none, secret := none,
          events := some ["critical"], enabled := true }
        { p with level := "error" } = false) := by
  refine ⟨?_, ?_, ?_, ?_⟩
  · intro h
    simp [shouldSend, h]
  · intro he hev
    rcases hev with h | h <;> simp [shouldSend, he, h, List.isEmpty]
  · intro evs he hev hne
    simp [shouldSend, he, hev, List.isEmpty_iff, hne]
  · intro u
    simp [shouldSend]
    decide

/-- Witness for C5 at a concrete disabled subscription and payload. -/
theorem c5_should_send_witness :
    shouldSend
      { id := "w2", type := "slack", url := "u", name := none, secret := none,
        events := none, enabled := false }
      { event_id := "e", issue_id := 1, message := "m", level := "error",
        stacktrace := none, timestamp := none, tags := none, context := none,
        host := none } = false :=
  (c5_should_send
      { id := "w2", type := "slack", url := "u", name := none, secret := none,
        events := none, enabled := false }
      { event_id := "e", issue_id := 1, message := "m", level := "error",
        stacktrace := none, timestamp := none, tags := none, context := none,
        host := none }).1 rfl

/-- C8: `load_events` returns exactly the documents of the parseable files,
in scan order, skipping every corrupt file; it is a total function, so no
input aborts the scan. -/
theorem c8_load_events (fs : List RawFile) :
    loadEvents fs = fs.filterMap rawValue
    ∧ (loadEvents fs).length = (fs.filter rawIsValid).length := by
  constructor
  · induction fs with
    | nil => rfl
    | cons f rest ih => cases f <;> simp [loadEvents, rawValue, ih]
  · induction fs with
    | nil => rfl
    | cons f rest ih => cases f <;> simp [loadEvents, rawIsValid, ih]

/-- C10: `test_webhook` on a present subscription with a registered provider
type invokes the provider's `send` with the synthetic payload, without any
`should_send` check: when the subscription is disabled, `should_send` would
reject the payload, yet the send still happens and its result is returned
unchanged. -/
theorem c10_test_bypasses_filters (subs : List WebhookConfig) (wid : String)
    (w : WebhookConfig) (hw : getWebhook subs wid = some w)
    (hreg : registeredTypes.contains w.type = true) :
    testWebhookCall subs wid = some (w, testPayload)
    ∧ (∀ send, testWebhook subs wid send = send w testPayload)
    ∧ (w.enabled = false → shouldSend w testPayload = false) := by
  have hc : testWebhookCall subs wid = some (w, testPayload) := by
    simp [testWebhookCall, hw, hreg]
    simpa using hreg
  refine ⟨hc, ?_, ?_⟩
  · intro send
    simp [testWebhook, hc]
  · intro h
    simp [shouldSend, h]

/-- Witness for C10: a concrete disabled subscription is still sent the
test payload. -/
theorem c10_test_bypasses_filters_witness :
    testWebhookCall
        [{ id := "w3", type := "http", url := "u", name := none,
           secret := none, events := some ["critical"], enabled := false }]
        "w3" =
      some ({ id := "w3", type := "http", url := "u", name := none,
              secret := none, events := some ["critical"], enabled := false },
            testPayload)
    ∧ shouldSend
        { id := "w3", type := "http", url := "u", name := none,
          secret := none, events := some ["critical"], enabled := false }
        testPayload = false := by
  have h := c10_test_bypasses_filters
    [{ id := "w3", type := "http", url := "u", name := none,
       secret := none, events := some ["critical"], enabled := false }]
    "w3"
    { id := "w3", type := "http", url := "u", name := none,
      secret := none, events := some ["critical"], enabled := false }
    (by rfl) (by decide)
  exact ⟨h.1, h.2.2 rfl⟩

/-- Looking up a key other than the one being set is unchanged. -/
theorem pyGet_setKey_other (cfg : List (String × J)) (k k2 : String) (v : J)
    (h : k ≠ k2) : pyGet (setKey cfg k2 v) k = pyGet cfg k := by
  induction cfg with
  | nil => simp [setKey, pyGet, Ne.symm h]
  | cons hd tl ih =>
      obtain ⟨k1, v1⟩ := hd
      by_cases h1 : k1 = k2
      · subst h1
        simp [setKey, pyGet, Ne.symm h]
      · by_cases h3 : k1 = k
        · subst h3
          simp [setKey, pyGet, h1]
        · simp [setKey, pyGet, h1, h3, ih]

/-- C9: every dispatcher registry mutation persists by rewriting only the
`webhooks` key of the shared configuration document; any sibling key holds
the same value afterwards as before. -/
theorem c9_sibling_keys_preserved (cfg : List (String × J))
    (whs : List WebhookConfig) (k : String) (hk : k ≠ "webhooks") :
    pyGet (saveWebhooks cfg whs) k = pyGet cfg k
    ∧ (∀ nid ty url nm sec evs,
        pyGet (addWebhook cfg whs nid ty url nm sec evs).2.2 k = pyGet cfg k)
    ∧ (∀ wid, pyGet (removeWebhook cfg whs wid).2.2 k = pyGet cfg k)
    ∧ (∀ wid en, pyGet (toggleWebhook cfg whs wid en).2.2 k = pyGet cfg k) := by
  refine ⟨pyGet_setKey_other cfg k "webhooks" _ hk, ?_, ?_, ?_⟩
  · intro nid ty url nm sec evs
    exact pyGet_setKey_other cfg k "webhooks" _ hk
  · intro wid
    unfold removeWebhook
    cases removeFirst wid whs with
    | some whs2 => exact pyGet_setKey_other cfg k "webhooks" _ hk
    | none => rfl
  · intro wid en
    unfold toggleWebhook
    cases toggleFirst wid en whs with
    | some whs2 => exact pyGet_setKey_other cfg k "webhooks" _ hk
    | none => rfl

/-- Witness for C9 on a concrete configuration document holding user and AI
provider settings next to the webhooks key. -/
theorem c9_sibling_keys_preserved_witness :
    pyGet (saveWebhooks
        [("user", J.str "u"), ("ai_provider", J.str "openai"),
         ("webhooks", J.arr [])]
        [{ id := "w4", type := "http", url := "u", name := none,
           secret := none, events := none, enabled := true }]) "user" =
      pyGet [("user", J.str "u"), ("ai_provider", J.str "openai"),
             ("webhooks", J.arr [])] "user" :=
  (c9_sibling_keys_preserved
    [("user", J.str "u"), ("ai_provider", J.str "openai"), ("webhooks", J.arr [])]
    [{ id := "w4", type := "http", url := "u", name := none,
       secret := none, events := none, enabled := true }]
    "user" (by decide)).1

/-- A lookup misses when the key is not among the mapped ids. -/
theorem lookup_map_id_none (a : String) (l : List WebhookConfig)
    (g : WebhookConfig → Bool) (h : a ∉ l.map (fun w => w.id)) :
    List.lookup a (l.map (fun w => (w.id, g w))) = none := by
  induction l with
  | nil => rfl
  | cons hd tl ih =>
      simp only [List.map_cons, List.mem_cons, not_or] at h
      have hb : (a == hd.id) = false := by simpa using h.1
      simp only [List.map_cons, List.lookup, hb]
      exact ih h.2

/-- Lookup in the filtered-and-mapped result list of a dispatch. -/
theorem lookup_dispatch_aux (P : WebhookConfig → Bool) (g : WebhookConfig → Bool)
    (subs : List WebhookConfig) (hids : (subs.map (fun w => w.id)).Nodup)
    (w : WebhookConfig) (hw : w ∈ subs) :
    List.lookup w.id ((subs.filter P).map (fun v => (v.id, g v))) =
      if P w then some (g w) else none := by
  induction subs with
  | nil => cases hw
  | cons hd tl ih =>
      simp only [List.map_cons, List.nodup_cons] at hids
      rcases List.mem_cons.mp hw with he | ht
      · subst he
        by_cases hp : P w
        · simp [List.filter_cons, hp, List.lookup]
        · rw [if_neg (by simp [hp])]
          have hf : (w :: tl).filter P = tl.filter P := by
            simp [List.filter_cons, hp]
          rw [hf]
          apply lookup_map_id_none
          intro hmem
          rcases List.mem_map.mp hmem with ⟨v, hv, he2⟩
          exact hids.1 (List.mem_map.mpr ⟨v, List.mem_of_mem_filter hv, he2⟩)
      · have hne : hd.id ≠ w.id := by
          intro he2
          exact hids.1 (he2 ▸ List.mem_map.mpr ⟨w, ht, rfl⟩)
        by_cases hp : P hd
        · have hf : (hd :: tl).filter P = hd :: tl.filter P := by
            simp [List.filter_cons, hp]
          rw [hf]
          have hb : (w.id == hd.id) = false := by
            simpa using fun e => hne e.symm
          simp only [List.map_cons, List.lookup, hb]
          exact ih hids.2 ht
        · have hf : (hd :: tl).filter P = tl.filter P := by
            simp [List.filter_cons, hp]
          rw [hf]
          exact ih hids.2 ht

/-- C4: over a registry whose subscription types are all registered and
whose ids are distinct, a dispatch returns exactly one boolean entry per
subscription passing `should_send` (so disabled subscriptions, and
subscriptions whose filter rejects the payload level, contribute no entry);
a send that raises is caught and recorded as `false` for that subscription
id, and the dispatch function is total, so an exception never propagates to
the caller nor removes the entries of sibling deliveries. -/
theorem c4_dispatch_result_map (subs : List WebhookConfig) (p : WebhookPayload)
    (send : WebhookConfig → SendOutcome)
    (hreg : ∀ w ∈ subs, registeredTypes.contains w.type = true)
    (hids : (subs.map (fun w => w.id)).Nodup) :
    dispatch subs p send =
      (subs.filter (fun w => shouldSend w p)).map
        (fun w => (w.id, sendValue (send w)))
    ∧ (dispatch subs p send).length =
        (subs.filter (fun w => shouldSend w p)).length
    ∧ (∀ w ∈ subs, shouldSend w p = true →
        List.lookup w.id (dispatch subs p send) = some (sendValue (send w)))
    ∧ (∀ w ∈ subs, shouldSend w p = false →
        List.lookup w.id (dispatch subs p send) = none)
    ∧ (∀ w ∈ subs, shouldSend w p = true → send w = .raised →
        List.lookup w.id (dispatch subs p send) = some false) := by
  have heq : dispatch subs p send =
      (subs.filter (fun w => shouldSend w p)).map
        (fun w => (w.id, sendValue (send w))) := by
    unfold dispatch
    congr 1
    apply List.filter_congr
    intro w hw
    rw [hreg w hw]
    simp
  refine ⟨heq, by rw [heq]; simp, ?_, ?_, ?_⟩
  · intro w hw hs
    rw [heq, lookup_dispatch_aux _ _ subs hids w hw, if_pos hs]
  · intro w hw hs
    rw [heq, lookup_dispatch_aux _ _ subs hids w hw, if_neg (by simp [hs])]
  · intro w hw hs hr
    rw [heq, lookup_dispatch_aux _ _ subs hids w hw, if_pos hs, hr]
    rfl

/-- Witness for C4: against three enabled subscriptions and one disabled
one, the result map has exactly three entries; the raising provider is
recorded as `false`; the disabled subscription gets no entry. -/
theorem c4_dispatch_result_map_witness :
    (dispatch subsC4 pErr sendC4).length = 3
    ∧ List.lookup "b" (dispatch subsC4 pErr sendC4) = some false
    ∧ List.lookup "d" (dispatch subsC4 pErr sendC4) = none := by
  have h := c4_dispatch_result_map subsC4 pErr sendC4 (by decide) (by decide)
  refine ⟨by decide, ?_, ?_⟩
  · have hb := h.2.2.2.2
      { id := "b", type := "discord", url := "u2", name := none,
        secret := none, events := some ["error"], enabled := true }
      (by decide) (by decide) (by decide)
    simpa using hb
  · have hd := h.2.2.2.1
      { id := "d", type := "http", url := "u4", name := none,
        secret := none, events := none, enabled := false }
      (by decide) (by decide)
    simpa using hd

/-- C6 (amended): the generic HTTP adapter sends the
`X-CrashVault-Signature` header exactly when the subscription has a
non-empty secret (the truthiness test of the source: a `None` or
empty-string secret sends no header), and its value is `sha256=` followed
by the HMAC-SHA256 hex digest, keyed by the UTF-8 secret, of the sorted-key
JSON serialization of the payload's dictionary projection; the serialized
keys appear in sorted order. -/
theorem c6_http_signature (w : WebhookConfig) (p : WebhookPayload) :
    (w.secret = none →
      List.lookup "X-CrashVault-Signature" (httpHeaders w p) = none)
    ∧ (w.secret = some "" →
      List.lookup "X-CrashVault-Signature" (httpHeaders w p) = none)
    ∧ (∀ sec, w.secret = some sec → sec ≠ "" →
        List.lookup "X-CrashVault-Signature" (httpHeaders w p) =
          some ("sha256=" ++
            hmacSha256Hex (utf8 sec) (utf8 (dumps (J.obj (payloadDict p))))))
    ∧ (sortByKey (dumpsEntries (payloadDict p))).map (fun q => q.1) =
        ["context", "event_id", "host", "issue_id", "level", "message",
         "stacktrace", "tags", "timestamp"] := by
  refine ⟨?_, ?_, ?_, ?_⟩
  · intro h
    simp [httpHeaders, h, List.lookup]
  · intro h
    simp [httpHeaders, h, List.lookup]
  · intro sec h hne
    have hb : (sec == "") = false := by simpa using hne
    simp [httpHeaders, h, hb, List.lookup, signPayload]
  · rfl

/-- Witness for C6 (amended) at a concrete subscription and payload. -/
theorem c6_http_signature_witness :
    List.lookup "X-CrashVault-Signature"
        (httpHeaders
          { id := "w5", type := "http", url := "u", name := none,
            secret := some "s3cr3t", events := none, enabled := true } pSig) =
      some ("sha256=" ++
        hmacSha256Hex (utf8 "s3cr3t") (utf8 (dumps (J.obj (payloadDict pSig))))) :=
  (c6_http_signature
    { id := "w5", type := "http", url := "u", name := none,
      secret := some "s3cr3t", events := none, enabled := true } pSig).2.2.1
    "s3cr3t" rfl (by decide)

/-- Counterexample for C6 as stated: a subscription whose secret field is
set to the empty string does have a secret, yet `HTTPWebhook.send` sends no
signature header, because the source gates the header on Python truthiness
(`if self.config.secret:`) rather than on presence. -/
theorem c6_http_signature_counterexample :
    ({ id := "w6", type := "http", url := "u", name := none,
       secret := some "", events := none, enabled := true } : WebhookConfig).secret
      ≠ none
    ∧ List.lookup "X-CrashVault-Signature"
        (httpHeaders
          { id := "w6", type := "http", url := "u", name := none,
            secret := some "", events := none, enabled := true }
          { event_id := "e2", issue_id := 1, message := "m", level := "error",
            stacktrace := none, timestamp := none, tags := none,
            context := none, host := none }) = none := by
  constructor
  · intro h
    exact Option.noConfusion h
  · rfl

/-- Validation of the whole signing chain against a signature computed
independently with Python's json and hmac modules on the same payload. -/
theorem signature_chain_validation :
    signPayload pSig "s3cr3t" =
      "d783554b54e4f27afca249b7753ad19e91f14c4ffc0e564fbc92f88f8c37a7b4"
    ∧ dumps (J.obj (payloadDict pSig)) =
      "\x7b\"context\": \x7b\"k\": 1\x7d, \"event_id\": \"e1\", \"host\": \"h1\", \"issue_id\": 7, \"level\": \"error\", \"message\": \"boom\", \"stacktrace\": null, \"tags\": [\"a\"], \"timestamp\": \"2024-01-01T00:00:00Z\"\x7d" := by
  constructor
  · decide
  · decide

/-- When no issue carries the fingerprint, `storeEvent` creates one with
`id = len(issues) + 1` and appends the event. -/
theorem storeEvent_fresh (ts : String) (f : NormFields) (s : Vault)
    (hfresh : s.issues.find?
      (fun i => i.fingerprint == fingerprint f.message) = none) :
    storeEvent ts f s =
      ((s.next, s.issues.length + 1, true),
       { issues := s.issues ++
           [{ id := s.issues.length + 1,
              fingerprint := fingerprint f.message,
              title := strTake f.message 80,
              status := "open", created_at := ts }]
         events := s.events ++ [mkEvent s.next (s.issues.length + 1) ts f]
         next := s.next + 1 }) := by
  unfold storeEvent
  rw [hfresh]

/-- When an issue with the fingerprint exists, `storeEvent` reuses the first
such issue and only appends the event. -/
theorem storeEvent_found (ts : String) (f : NormFields) (s : Vault)
    (iss : Issue)
    (hf : s.issues.find?
      (fun i => i.fingerprint == fingerprint f.message) = some iss) :
    storeEvent ts f s =
      ((s.next, iss.id, false),
       { s with events := s.events ++ [mkEvent s.next iss.id ts f],
                next := s.next + 1 }) := by
  unfold storeEvent
  rw [hf]

/-- A successful normalization reduces `_handle_event` to `storeEvent`. -/
theorem handleEvent_ok (client ts : String) (d : List (String × J)) (s : Vault)
    (f : NormFields) (h : normSingle client d = .ok f) :
    handleEvent client ts d s =
      (.created (storeEvent ts f s).1.1 (storeEvent ts f s).1.2.1
        (storeEvent ts f s).1.2.2, (storeEvent ts f s).2) := by
  unfold handleEvent
  rw [h]

/-- C1 (amended): on an event submission whose fingerprint is fresh, the
newly created Issue gets `id = len(issues) + 1` — the number of surviving
issues plus one, which is 1 on an empty collection.  This value coincides
with `max(existing ids) + 1`, and ids are then strictly increasing and
never reused, only under the additional assumption that no existing id
exceeds the collection size (as in deletion-free histories); after an issue
deletion the assigned id can collide with a surviving id. -/
theorem c1_id_allocation (ts : String) (f : NormFields) (s : Vault)
    (hfresh : s.issues.find?
      (fun i => i.fingerprint == fingerprint f.message) = none) :
    ∃ niss : Issue,
      (storeEvent ts f s).2.issues = s.issues ++ [niss]
      ∧ niss.id = s.issues.length + 1
      ∧ (s.issues = [] → niss.id = 1)
      ∧ ((∀ i ∈ s.issues, i.id ≤ s.issues.length) →
          (∀ i ∈ s.issues, i.id < niss.id)
          ∧ niss.id ∉ s.issues.map (fun i => i.id))
      ∧ (∀ client d, normSingle client d = .ok f →
          (handleEvent client ts d s).2.issues = s.issues ++ [niss]) := by
  rw [storeEvent_fresh ts f s hfresh]
  refine ⟨_, rfl, rfl, ?_, ?_, ?_⟩
  · intro h
    rw [h]
    rfl
  · intro hb
    constructor
    · intro i hi
      exact Nat.lt_succ_of_le (hb i hi)
    · intro hmem
      rcases List.mem_map.mp hmem with ⟨i, hi, he⟩
      have h2 := hb i hi
      have h3 : i.id = s.issues.length + 1 := he
      omega
  · intro client d hn
    rw [handleEvent_ok client ts d s f hn, storeEvent_fresh ts f s hfresh]

/-- Witness for C1 (amended) on the empty collection. -/
theorem c1_id_allocation_witness :
    ∃ niss : Issue,
      (storeEvent "T" fBoom emptyVault).2.issues = emptyVault.issues ++ [niss]
      ∧ niss.id = emptyVault.issues.length + 1
      ∧ (emptyVault.issues = [] → niss.id = 1)
      ∧ ((∀ i ∈ emptyVault.issues, i.id ≤ emptyVault.issues.length) →
          (∀ i ∈ emptyVault.issues, i.id < niss.id)
          ∧ niss.id ∉ emptyVault.issues.map (fun i => i.id))
      ∧ (∀ client d, normSingle client d = .ok fBoom →
          (handleEvent client "T" d emptyVault).2.issues =
            emptyVault.issues ++ [niss]) :=
  c1_id_allocation "T" fBoom emptyVault rfl

/-- Counterexample for C1 as stated: in the reachable state `vaultC1`
(ids 1 and 2 created, issue 1 purged), submitting a fresh message creates
an issue with id `len+1 = 2`, which both reuses the id of the surviving
issue and differs from `max(existing ids) + 1 = 3`. -/
theorem c1_counterexample :
    (handleEvent "h" "T" [("message", J.str "boom")] vaultC1).2.issues.map
        (fun i => i.id) = [2, 2]
    ∧ (handleEvent "h" "T" [("message", J.str "boom")] vaultC1).1 =
        .created 5 2 true
    ∧ (vaultC1.issues.foldl (fun a i => Nat.max a i.id) 0) + 1 = 3 := by
  refine ⟨?_, ?_, ?_⟩
  · decide
  · decide
  · decide

/-- Searching an appended list when the first part has no match. -/
theorem find?_append_none {α} (p : α → Bool) (l1 l2 : List α)
    (h : l1.find? p = none) : (l1 ++ l2).find? p = l2.find? p := by
  induction l1 with
  | nil => rfl
  | cons a tl ih =>
      cases hpa : p a with
      | true =>
          rw [List.find?_cons_of_pos _ hpa] at h
          exact absurd h (by simp)
      | false =>
          rw [List.find?_cons_of_neg _ (by simp [hpa])] at h
          rw [List.cons_append, List.find?_cons_of_neg _ (by simp [hpa])]
          exact ih h

/-- A list with no `find?` match filters to the empty list. -/
theorem filter_of_find?_none {α} (p : α → Bool) (l : List α)
    (h : l.find? p = none) : l.filter p = [] := by
  induction l with
  | nil => rfl
  | cons a tl ih =>
      cases hpa : p a with
      | true =>
          rw [List.find?_cons_of_pos _ hpa] at h
          exact absurd h (by simp)
      | false =>
          rw [List.find?_cons_of_neg _ (by simp [hpa])] at h
          simp [List.filter_cons, hpa, ih h]

/-- A successful `find?` guarantees at least one filtered element. -/
theorem filter_pos_of_find?_some {α} (p : α → Bool) (l : List α) (x : α)
    (h : l.find? p = some x) : 1 ≤ (l.filter p).length := by
  have hmem := List.mem_of_find?_eq_some h
  have hp := List.find?_some h
  have h2 : x ∈ l.filter p := List.mem_filter.mpr ⟨hmem, hp⟩
  exact List.length_pos.mpr (List.ne_nil_of_mem h2)

/-- C3: the fingerprint is the first 8 hex characters of the SHA-1 digest of
the UTF-8 message, and submitting two requests carrying byte-identical
messages (starting from any state satisfying the one-issue-per-fingerprint
invariant) yields the same issue id in both responses, leaves exactly one
issue with that fingerprint, and appends two distinct events. -/
theorem c3_fingerprint_dedup (client ts1 ts2 m : String)
    (d1 d2 : List (String × J)) (s : Vault) (f1 f2 : NormFields)
    (h1 : normSingle client d1 = .ok f1) (h2 : normSingle client d2 = .ok f2)
    (hm1 : f1.message = m) (hm2 : f2.message = m)
    (hinv : (s.issues.filter
      (fun i => i.fingerprint == fingerprint m)).length ≤ 1) :
    fingerprint m = strTake (sha1Hex (utf8 m)) 8
    ∧ ∃ iid b1 b2 e1 e2,
        (handleEvent client ts1 d1 s).1 = .created s.next iid b1
        ∧ (handleEvent client ts2 d2 (handleEvent client ts1 d1 s).2).1 =
            .created (s.next + 1) iid b2
        ∧ ((handleEvent client ts2 d2 (handleEvent client ts1 d1 s).2).2.issues.filter
            (fun i => i.fingerprint == fingerprint m)).length = 1
        ∧ (handleEvent client ts2 d2 (handleEvent client ts1 d1 s).2).2.events =
            s.events ++ [e1, e2]
        ∧ e1.event_id = s.next ∧ e2.event_id = s.next + 1
        ∧ e1.event_id ≠ e2.event_id := by
  subst hm1
  refine ⟨rfl, ?_⟩
  cases hfind : s.issues.find?
      (fun i => i.fingerprint == fingerprint f1.message) with
  | none =>
      have hstep1 : handleEvent client ts1 d1 s =
          (.created s.next (s.issues.length + 1) true,
           { issues := s.issues ++
               [{ id := s.issues.length + 1,
                  fingerprint := fingerprint f1.message,
                  title := strTake f1.message 80,
                  status := "open", created_at := ts1 }]
             events := s.events ++
               [mkEvent s.next (s.issues.length + 1) ts1 f1]
             next := s.next + 1 }) := by
        rw [handleEvent_ok client ts1 d1 s f1 h1, storeEvent_fresh ts1 f1 s hfind]
      rw [hstep1]
      have hfind2 : ((s.issues ++
          [{ id := s.issues.length + 1,
             fingerprint := fingerprint f1.message,
             title := strTake f1.message 80,
             status := "open", created_at := ts1 }] : List Issue).find?
          (fun i => i.fingerprint == fingerprint f2.message)) =
            some { id := s.issues.length + 1,
                   fingerprint := fingerprint f1.message,
                   title := strTake f1.message 80,
                   status := "open", created_at := ts1 } := by
        rw [hm2, find?_append_none _ _ _ hfind]
        exact List.find?_cons_of_pos _ (by simp)
      have hstep2 : handleEvent client ts2 d2
          ({ issues := s.issues ++
               [{ id := s.issues.length + 1,
                  fingerprint := fingerprint f1.message,
                  title := strTake f1.message 80,
                  status := "open", created_at := ts1 }]
             events := s.events ++
               [mkEvent s.next (s.issues.length + 1) ts1 f1]
             next := s.next + 1 } : Vault) =
          (.created (s.next + 1) (s.issues.length + 1) false,
           { issues := s.issues ++
               [{ id := s.issues.length + 1,
                  fingerprint := fingerprint f1.message,
                  title := strTake f1.message 80,
                  status := "open", created_at := ts1 }]
             events := (s.events ++
               [mkEvent s.next (s.issues.length + 1) ts1 f1]) ++
               [mkEvent (s.next + 1) (s.issues.length + 1) ts2 f2]
             next := s.next + 1 + 1 }) := by
        rw [handleEvent_ok client ts2 d2 _ f2 h2, storeEvent_found ts2 f2 _ _ hfind2]
      rw [hstep2]
      refine ⟨s.issues.length + 1, true, false,
        mkEvent s.next (s.issues.length + 1) ts1 f1,
        mkEvent (s.next + 1) (s.issues.length + 1) ts2 f2,
        rfl, rfl, ?_, by simp, rfl, rfl,
        Nat.ne_of_lt (Nat.lt_succ_self s.next)⟩
      rw [List.filter_append, filter_of_find?_none _ _ hfind]
      simp
  | some iss =>
      have hfind2 : s.issues.find?
          (fun i => i.fingerprint == fingerprint f2.message) = some iss := by
        rw [hm2]; exact hfind
      have hstep1 : handleEvent client ts1 d1 s =
          (.created s.next iss.id false,
           { s with events := s.events ++ [mkEvent s.next iss.id ts1 f1],
                    next := s.next + 1 }) := by
        rw [handleEvent_ok client ts1 d1 s f1 h1, storeEvent_found ts1 f1 s iss hfind]
      rw [hstep1]
      have hstep2 : handleEvent client ts2 d2
          ({ s with events := s.events ++ [mkEvent s.next iss.id ts1 f1],
                    next := s.next + 1 } : Vault) =
          (.created (s.next + 1) iss.id false,
           { s with events := (s.events ++ [mkEvent s.next iss.id ts1 f1]) ++
               [mkEvent (s.next + 1) iss.id ts2 f2],
                    next := s.next + 1 + 1 }) := by
        rw [handleEvent_ok client ts2 d2 _ f2 h2,
            storeEvent_found ts2 f2
              ({ s with events := s.events ++ [mkEvent s.next iss.id ts1 f1],
                        next := s.next + 1 } : Vault) iss hfind2]
      rw [hstep2]
      refine ⟨iss.id, false, false,
        mkEvent s.next iss.id ts1 f1,
        mkEvent (s.next + 1) iss.id ts2 f2,
        rfl, rfl, ?_, by simp, rfl, rfl,
        Nat.ne_of_lt (Nat.lt_succ_self s.next)⟩
      have hge := filter_pos_of_find?_some _ _ _ hfind
      show (List.filter (fun i => i.fingerprint == fingerprint f1.message)
        s.issues).length = 1
      omega

/-- Witness for C3: submitting the same message twice on the empty vault. -/
theorem c3_fingerprint_dedup_witness :
    fingerprint "boom" = strTake (sha1Hex (utf8 "boom")) 8
    ∧ ∃ iid b1 b2 e1 e2,
        (handleEvent "h" "T1" [("message", J.str "boom")] emptyVault).1 =
          .created emptyVault.next iid b1
        ∧ (handleEvent "h" "T2" [("message", J.str "boom")]
            (handleEvent "h" "T1" [("message", J.str "boom")] emptyVault).2).1 =
            .created (emptyVault.next + 1) iid b2
        ∧ ((handleEvent "h" "T2" [("message", J.str "boom")]
            (handleEvent "h" "T1" [("message", J.str "boom")] emptyVault).2).2.issues.filter
            (fun i => i.fingerprint == fingerprint "boom")).length = 1
        ∧ (handleEvent "h" "T2" [("message", J.str "boom")]
            (handleEvent "h" "T1" [("message", J.str "boom")] emptyVault).2).2.events =
            emptyVault.events ++ [e1, e2]
        ∧ e1.event_id = emptyVault.next ∧ e2.event_id = emptyVault.next + 1
        ∧ e1.event_id ≠ e2.event_id :=
  c3_fingerprint_dedup "h" "T1" "T2" "boom"
    [("message", J.str "boom")] [("message", J.str "boom")] emptyVault
    fBoom fBoom rfl rfl rfl rfl (by decide)

/-- Each `storeEvent` call appends exactly one event record. -/
theorem storeEvent_events_length (ts : String) (f : NormFields) (s : Vault) :
    (storeEvent ts f s).2.events.length = s.events.length + 1 := by
  unfold storeEvent
  cases s.issues.find? (fun i => i.fingerprint == fingerprint f.message) <;> simp

/-- Only string values pass `isStrJ`. -/
theorem exists_str_of_isStrJ (v : J) (h : isStrJ v = true) : ∃ m, v = J.str m := by
  cases v with
  | str m => exact ⟨m, rfl⟩
  | null => simp [isStrJ] at h
  | bool b => simp [isStrJ] at h
  | num n => simp [isStrJ] at h
  | arr a => simp [isStrJ] at h
  | obj o => simp [isStrJ] at h

/-- The batch loop over well-formed elements never raises, produces one
result per processed element, and appends one event per result. -/
theorem runBatch_ok (client ts : String) (l : List J) :
    ∀ s : Vault, (∀ el ∈ l, msgIsStr el = true) →
      ∃ rs s2, runBatch client ts l s = (some rs, s2)
        ∧ rs.length = (l.filter shouldProcess).length
        ∧ s2.events.length = s.events.length + rs.length := by
  induction l with
  | nil =>
      intro s _
      exact ⟨[], s, rfl, rfl, by simp⟩
  | cons el rest ih =>
      intro s h
      have hel := h el (List.mem_cons_self el rest)
      by_cases hp : shouldProcess el = true
      · cases el with
        | obj li =>
            cases hv : pyGet li "message" with
            | none => simp [shouldProcess, hv] at hp
            | some v =>
                have ht : v.truthy = true := by
                  simpa [shouldProcess, hv] using hp
                have hstr : isStrJ v = true := by
                  have h2 : (!v.truthy || isStrJ v) = true := by
                    simpa [msgIsStr, hv] using hel
                  rw [ht] at h2
                  simpa using h2
                obtain ⟨m, rfl⟩ := exists_str_of_isStrJ v hstr
                obtain ⟨rs, s2, he, hlen, hev⟩ :=
                  ih (storeEvent ts (batchFields client li m) s).2
                    (fun el2 h2 => h el2 (List.mem_cons_of_mem (J.obj li) h2))
                refine ⟨((storeEvent ts (batchFields client li m) s).1.1,
                         (storeEvent ts (batchFields client li m) s).1.2.1) :: rs,
                        s2, ?_, ?_, ?_⟩
                · simp [runBatch, hp, hv, he]
                · simp [List.filter_cons, hp, hlen]
                · rw [hev, storeEvent_events_length]
                  simp [List.length_cons]
                  omega
        | null => simp [shouldProcess] at hp
        | bool b => simp [shouldProcess] at hp
        | num n => simp [shouldProcess] at hp
        | str st => simp [shouldProcess] at hp
        | arr a => simp [shouldProcess] at hp
      · obtain ⟨rs, s2, he, hlen, hev⟩ := ih s
          (fun el2 h2 => h el2 (List.mem_cons_of_mem el h2))
        refine ⟨rs, s2, ?_, ?_, hev⟩
        · simpa [runBatch, hp] using he
        · simp [List.filter_cons, hp, hlen]

/-- C7: a batch of more than 100 elements is rejected wholesale with a 400
and nothing is written; a batch of at most 100 well-formed elements
succeeds, silently skipping every element that is not a dict with a truthy
message, and returns exactly one `(event_id, issue_id)` result per
processed element, each of which wrote exactly one event. -/
theorem c7_batch_cap_and_skip (client ts : String) (d : List (String × J))
    (s : Vault) (l : List J) (hl : pyGet d "events" = some (J.arr l)) :
    (l.length > 100 → handleBatch client ts d s = (.tooMany, s))
    ∧ (l.length ≤ 100 → (∀ el ∈ l, msgIsStr el = true) →
        ∃ rs s2, handleBatch client ts d s = (.ok rs, s2)
          ∧ rs.length = (l.filter shouldProcess).length
          ∧ s2.events.length = s.events.length + rs.length) := by
  constructor
  · intro hbig
    unfold handleBatch
    rw [hl]
    simp [hbig]
  · intro hsmall hwf
    obtain ⟨rs, s2, he, hlen, hev⟩ := runBatch_ok client ts l s hwf
    refine ⟨rs, s2, ?_, hlen, hev⟩
    unfold handleBatch
    rw [hl]
    have hnot : ¬ l.length > 100 := by omega
    simp [hnot, he]

/-- Witness for C7: a wholesale-rejected batch of 101 elements on the one
hand, and a 3-element batch (one processable element, one with an empty
message, one non-dict) producing exactly one result on the other. -/
theorem c7_batch_cap_and_skip_witness :
    (handleBatch "h" "T"
        [("events", J.arr (List.replicate 101 (J.obj [("message", J.str "a")])))]
        emptyVault =
      (.tooMany, emptyVault))
    ∧ (∃ rs s2, handleBatch "h" "T"
        [("events", J.arr [J.obj [("message", J.str "a")],
                           J.obj [("message", J.str "")], J.null])]
        emptyVault = (.ok rs, s2)
        ∧ rs.length = ([J.obj [("message", J.str "a")],
                        J.obj [("message", J.str "")],
                        J.null].filter shouldProcess).length
        ∧ s2.events.length = emptyVault.events.length + rs.length)
    ∧ ([J.obj [("message", J.str "a")], J.obj [("message", J.str "")],
        J.null].filter shouldProcess).length = 1 :=
  ⟨(c7_batch_cap_and_skip "h" "T"
      [("events", J.arr (List.replicate 101 (J.obj [("message", J.str "a")])))]
      emptyVault (List.replicate 101 (J.obj [("message", J.str "a")]))
      rfl).1 (by simp),
   (c7_batch_cap_and_skip "h" "T"
      [("events", J.arr [J.obj [("message", J.str "a")],
                         J.obj [("message", J.str "")], J.null])]
      emptyVault
      [J.obj [("message", J.str "a")], J.obj [("message", J.str "")], J.null]
      rfl).2 (by decide) (by decide),
   by decide⟩

/-- Valid level names are already lowercase. -/
theorem lower_of_valid (s : String) (h : validLevels.contains s = true) :
    pyLower s = s := by
  have hmem : s ∈ validLevels := by simpa using h
  fin_cases hmem <;> rfl

/-- Without the `stack` alias in play, the aliased stacktrace lookup equals
the plain one. -/
theorem stack_agree (d : List (String × J)) (hsk : stackOk d = true) :
    pyGetD d "stacktrace" (pyGetD d "stack" (J.str "")) =
      pyGetD d "stacktrace" (J.str "") := by
  cases hs : pyGet d "stacktrace" with
  | some v => simp [pyGetD, hs]
  | none =>
      have h2 : pyGet d "stack" = none := by
        have h3 := hsk
        simp only [stackOk, hs, Option.isSome_none, Bool.false_or] at h3
        exact Option.isNone_iff_eq_none.mp h3
      simp [pyGetD, hs, h2]

/-- Non-string tags are passed through unchanged by the single-event
normalization. -/
theorem tags_agree (d : List (String × J)) (htg : tagsOk d = true) :
    singleTags d = pyGetD d "tags" (J.arr []) := by
  cases ht : pyGet d "tags" with
  | none => simp [singleTags, pyGetD, ht]
  | some v =>
      cases v with
      | str s => simp [tagsOk, ht] at htg
      | null => simp [singleTags, pyGetD, ht]
      | bool b => simp [singleTags, pyGetD, ht]
      | num n => simp [singleTags, pyGetD, ht]
      | arr a => simp [singleTags, pyGetD, ht]
      | obj o => simp [singleTags, pyGetD, ht]

/-- With an object (or absent) context and no folding alias present, the
single-event context normalization is the verbatim context. -/
theorem context_agree (d : List (String × J)) (hcx : ctxOk d = true)
    (hnf : noFoldKeys d = true) :
    J.obj (singleContext d) = pyGetD d "context" (J.obj []) := by
  have h6 := hnf
  simp only [noFoldKeys, Bool.and_eq_true, Option.isNone_iff_eq_none] at h6
  obtain ⟨⟨⟨⟨⟨hsrc, hurl⟩, hline⟩, hlineno⟩, hcol⟩, hcolno⟩ := h6
  cases hc : pyGet d "context" with
  | none =>
      simp [singleContext, pyGetD, hc, hsrc, hurl, hline, hlineno, hcol,
        hcolno, J.truthy, Option.orElse]
  | some v =>
      cases v with
      | obj l =>
          simp [singleContext, pyGetD, hc, hsrc, hurl, hline, hlineno, hcol,
            hcolno, J.truthy, Option.orElse]
      | null => simp [ctxOk, hc] at hcx
      | bool b => simp [ctxOk, hc] at hcx
      | num n => simp [ctxOk, hc] at hcx
      | str s => simp [ctxOk, hc] at hcx
      | arr a => simp [ctxOk, hc] at hcx

/-- C2 (amended): the batch endpoint applies none of the single-event
normalizations — each element's `level`, `tags` and `context` are taken
verbatim with plain defaults, only the `stacktrace` key (not the `stack`
alias) is read, and no source/url/line/column folding happens.  The two
agree exactly on bodies already in normal form: a truthy string message, a
`level` that is absent or a valid lowercase name, `tags` not a bare string,
`context` absent or an object, no `stack` alias in play, and no folding
alias present. -/
theorem c2_batch_normalization (client m : String) (d : List (String × J))
    (hm : pyGet d "message" = some (J.str m)) (hmt : m ≠ "")
    (hn : normalFormB d = true) :
    normSingle client d = .ok (batchFields client d m) := by
  have hmne : (m == "") = false := by simpa using hmt
  have hand := hn
  simp only [normalFormB, Bool.and_eq_true] at hand
  obtain ⟨⟨⟨⟨hlv, htg⟩, hcx⟩, hsk⟩, hnf⟩ := hand
  cases hl : pyGet d "level" with
  | none =>
      have hlred : pyGetD d "level" (J.str "error") = J.str "error" := by
        simp [pyGetD, hl]
      simp only [normSingle, hm, J.truthy, hmne, Bool.not_false, if_true, hlred]
      rw [stack_agree d hsk, tags_agree d htg, context_agree d hcx hnf]
      have hlval : (if validLevels.contains (pyLower "error") = true
          then pyLower "error" else "error") = "error" := by decide
      simp only [batchFields, hlred, hlval]
  | some v =>
      cases v with
      | str s =>
          have hcont : validLevels.contains s = true := by
            simpa [levelOk, hl] using hlv
          have hlred : pyGetD d "level" (J.str "error") = J.str s := by
            simp [pyGetD, hl]
          simp only [normSingle, hm, J.truthy, hmne, Bool.not_false, if_true,
            hlred]
          rw [lower_of_valid s hcont]
          rw [stack_agree d hsk, tags_agree d htg, context_agree d hcx hnf]
          simp only [batchFields, hlred, if_pos hcont]
      | null => simp [levelOk, hl] at hlv
      | bool b => simp [levelOk, hl] at hlv
      | num n => simp [levelOk, hl] at hlv
      | arr a => simp [levelOk, hl] at hlv
      | obj o => simp [levelOk, hl] at hlv

/-- Witness for C2 (amended) on a concrete normal-form body. -/
theorem c2_batch_normalization_witness :
    normSingle "h"
        [("message", J.str "x"), ("level", J.str "error"),
         ("tags", J.arr [J.str "t"])] =
      .ok (batchFields "h"
        [("message", J.str "x"), ("level", J.str "error"),
         ("tags", J.arr [J.str "t"])] "x") :=
  c2_batch_normalization "h" "x"
    [("message", J.str "x"), ("level", J.str "error"),
     ("tags", J.arr [J.str "t"])]
    rfl (by decide) (by decide)

/-- Counterexample for C2 as stated: the body with level `"ERROR"` is
normalized to level `"error"` by the single-event endpoint, while the batch
endpoint stores the level verbatim, so the two normalizations differ. -/
theorem c2_batch_normalization_counterexample :
    levelStrOf (normSingle "h" dC2) = some "error"
    ∧ levelStrOf (.ok (batchFields "h" dC2 "x")) = some "ERROR"
    ∧ normSingle "h" dC2 ≠ .ok (batchFields "h" dC2 "x") := by
  refine ⟨rfl, rfl, ?_⟩
  intro hcontra
  have h2 := congrArg levelStrOf hcontra
  rw [show levelStrOf (normSingle "h" dC2) = some "error" from rfl] at h2
  rw [show levelStrOf (.ok (batchFields "h" dC2 "x")) = some "ERROR" from rfl] at h2
  exact absurd h2 (by decide)

end CrashVault
